import Mathlib

/-!
Verification of the extension lifecycle engine in
`azurelinuxagent/distro/default/extension.py`.

The Python source is embedded shallowly: each Lean definition mirrors one
Python function (same name where possible); file-system reads, the HTTP
client and the child process are passed in explicitly as values describing
what the real environment would have answered.  Strings are Lean `String`
(Python 2 byte strings compare lexicographically by code unit, which
coincides with comparing the `List Char` of code points for the ASCII data
handled here); `int` is `Int`; raised `ExtensionError`s become the
`Except.error` branch.
-/

/-- The errors the engine can raise.  `extensionError` embeds a raised
`ExtensionError`; `keyError` embeds an uncaught Python `KeyError` from a
dict subscript; `typeError` an uncaught `TypeError`. -/
inductive PyErr where
  | extensionError (msg : String)
  | keyError (key : String)
  | typeError (msg : String)
deriving DecidableEq

/-- Embeds Python `str.rfind(c)` (index of the last occurrence, `-1` when
absent), as used at line 84 of the source. -/
def rfindChar : List Char → Char → Int
  | [], _ => -1
  | a :: as, c =>
    if rfindChar as c ≥ 0 then rfindChar as c + 1
    else if a = c then 0 else -1

/-- Embeds `ParseExtensionDirName` (extension.py lines 83-87): split an
extension directory name at the last dash; raise when there is none. -/
def ParseExtensionDirName (dirName : List Char) : Except PyErr (List Char × List Char) :=
  if rfindChar dirName '-' < 0 then
    Except.error (PyErr.extensionError "Invalid extenation dir name")
  else
    Except.ok (dirName.take (rfindChar dirName '-').toNat,
               dirName.drop ((rfindChar dirName '-').toNat + 1))

/-- One `{version, uris}` entry of the setting's `versionUris` list. -/
structure VersionUri where
  version : String
  uris : List String
deriving DecidableEq

/-- The extension setting delivered by the control plane (the fields the
engine reads).  `versionUris = none` embeds a JSON `null`. -/
structure ExtensionSetting where
  name : String
  version : String
  seqNo : Nat
  state : String
  upgradePolicy : Option String
  versionUris : Option (List VersionUri)
deriving DecidableEq

/-- The fields of `ExtensionInstance.__init__` that the embedded methods
consult. -/
structure ExtensionInstance where
  setting : ExtensionSetting
  currVersion : String
  installed : Bool
deriving DecidableEq

/-- Python `str.lower()` restricted to ASCII, as applied to the
`upgradePolicy` and `updateMode` values. -/
def asciiLowerChar (c : Char) : Char :=
  if 65 ≤ c.toNat ∧ c.toNat ≤ 90 then Char.ofNat (c.toNat + 32) else c

/-- Python `str.lower()` on a whole string. -/
def asciiLower (s : String) : String :=
  String.mk (s.data.map asciiLowerChar)

/-- Python 2 string `<` (lexicographic by code point, a proper prefix is
smaller), used by `sorted` and by the `>` comparisons on version strings. -/
def strListLt : List Char → List Char → Bool
  | [], [] => false
  | [], _ :: _ => true
  | _ :: _, [] => false
  | a :: as, b :: bs =>
    if a.toNat < b.toNat then true
    else if b.toNat < a.toNat then false
    else strListLt as bs

/-- Python `str.split('.')`, as used for `version.split('.')` at
line 481. -/
def splitDot : List Char → List (List Char)
  | [] => [[]]
  | c :: cs =>
    if c = '.' then [] :: splitDot cs
    else
      match splitDot cs with
      | [] => [[c]]
      | p :: ps => (c :: p) :: ps

/-- Insert one entry into a list kept in descending version order. -/
def insertDesc (x : VersionUri) : List VersionUri → List VersionUri
  | [] => [x]
  | y :: ys =>
    if strListLt y.version.data x.version.data then x :: y :: ys
    else y :: insertDesc x ys

/-- Embeds `sorted(versionUris, key=lambda x: x["version"], reverse=True)`
(lines 488-490): sort in descending lexical order of the version string. -/
def sortByVersionDesc (l : List VersionUri) : List VersionUri :=
  l.foldr insertDesc []

/-- Embeds `ExtensionInstance.getTargetVersion` (lines 475-494).  The dead
`if major is None` check of the source (`split` never yields `None`) has no
embedded counterpart. -/
def getTargetVersion (setting : ExtensionSetting) : Except PyErr String :=
  match setting.upgradePolicy with
  | none => Except.ok setting.version
  | some updatePolicy =>
    if asciiLower updatePolicy ≠ "auto" then Except.ok setting.version
    else
      match setting.versionUris with
      | none => Except.error (PyErr.typeError "argument of type NoneType is not iterable")
      | some versionUris =>
        match sortByVersionDesc (versionUris.filter (fun x =>
            List.isPrefixOf ((splitDot setting.version.data).headD [] ++ ['.'])
              x.version.data)) with
        | [] => Except.error (PyErr.extensionError "Cannot find version")
        | x :: _ => Except.ok x.version

/-- Embeds `ExtensionInstance.getPackageUris` (lines 496-506).  Note that
the source reads `self.setting.getVersion()`, never `self.currVersion`. -/
def getPackageUris (inst : ExtensionInstance) : Except PyErr (List String) :=
  match inst.setting.versionUris with
  | none => Except.error (PyErr.extensionError "Package uris is None")
  | some versionUris =>
    match versionUris.find? (fun vu => vu.version == inst.setting.version) with
    | some vu => Except.ok vu.uris
    | none => Except.error (PyErr.extensionError "Cannot get package uris")

/-- Embeds the fresh-install branch of `handleEnable` (lines 161-166): under
auto-upgrade the instance's `currVersion` is bumped to the resolved target
version before `download()` runs. -/
def handleEnableFreshCurrVersion (setting : ExtensionSetting) (currVersion : String) :
    Except PyErr String :=
  match getTargetVersion setting with
  | Except.error e => Except.error e
  | Except.ok targetVersion =>
    Except.ok (if strListLt setting.version.data targetVersion.data then targetVersion
               else currVersion)

/-- The setting used as concrete input for claims C5 and C6: goal version
`2.0.0` under `upgradePolicy = "auto"`, with package URI entries for
`2.0.0` and `2.3.1`. -/
def settingAuto : ExtensionSetting :=
  { name := "Foo", version := "2.0.0", seqNo := 0, state := "enabled",
    upgradePolicy := some "auto",
    versionUris := some [⟨"2.0.0", ["uriA"]⟩, ⟨"2.3.1", ["uriB"]⟩] }

/-- The view of one parsed `HandlerManifest.json` document that the engine
reads (element 0 of the JSON array).  `updateMode` is the value under the
`handlerManifest` subobject; `topLevelUpdateMode` records whether the key
`updateMode` is ALSO present in the document's top level, because the
source's `isUpdateWithInstall` (lines 605-610) tests
`"updateMode" in self.data` — the top-level dict — after testing
`"updateMode" not in self.data['handlerManifest']`. -/
structure HandlerManifestData where
  installCommand : String
  uninstallCommand : String
  updateCommand : String
  enableCommand : String
  disableCommand : String
  rebootAfterInstall : Option Bool
  reportHeartbeat : Option Bool
  updateMode : Option String
  topLevelUpdateMode : Bool
deriving DecidableEq

/-- Embeds `HandlerManifest.isReportHeartbeat` (lines 600-603): absent key
means false. -/
def isReportHeartbeat (m : HandlerManifestData) : Bool :=
  match m.reportHeartbeat with
  | none => false
  | some b => b

/-- Embeds `HandlerManifest.isUpdateWithInstall` (lines 605-610), including
the source's test of the top-level dict on line 608. -/
def isUpdateWithInstall (m : HandlerManifestData) : Bool :=
  match m.updateMode with
  | none => false
  | some v =>
    if m.topLevelUpdateMode then asciiLower v == "updatewithinstall" else false

/-- The five handler lifecycle command kinds. -/
inductive CmdKind where
  | install
  | uninstall
  | update
  | enable
  | disable
deriving DecidableEq

/-- One launched handler command: its kind and the `currVersion` of the
instance (old or new) it was launched for. -/
structure LaunchedCmd where
  kind : CmdKind
  version : String
deriving DecidableEq

/-- Append one launched command to the trace; `env` tells whether its
process exits zero, a non-zero exit raising `ExtensionError` as in
`launchCommand` (line 442). -/
def runLifecycleCmd (env : LaunchedCmd → Bool) (tr : List LaunchedCmd)
    (c : LaunchedCmd) : Except PyErr (List LaunchedCmd) :=
  if env c then Except.ok (tr ++ [c]) else Except.error (PyErr.extensionError "Non-zero exit code")

/-- Embeds the handler-command sequence of `ExtensionInstance.upgrade`
(lines 182-206).  `new.download()` and `new.initExtensionDir()` precede the
trace and launch no handler command; `newMan` is the manifest
`new.loadManifest()` returns.  Returns the ordered trace of launched
commands on success. -/
def upgrade (env : LaunchedCmd → Bool) (old newInst : ExtensionInstance)
    (newMan : HandlerManifestData) : Except PyErr (List LaunchedCmd) := do
  let tr ← runLifecycleCmd env [] ⟨CmdKind.disable, old.currVersion⟩
  let tr ← runLifecycleCmd env tr ⟨CmdKind.update, newInst.currVersion⟩
  let tr ← runLifecycleCmd env tr ⟨CmdKind.uninstall, old.currVersion⟩
  let tr ← if isUpdateWithInstall newMan then
      runLifecycleCmd env tr ⟨CmdKind.install, newInst.currVersion⟩
    else Except.ok tr
  runLifecycleCmd env tr ⟨CmdKind.enable, newInst.currVersion⟩

/-- A manifest whose `handlerManifest.updateMode` is `updateWithInstall`
but whose top-level object has no `updateMode` key — the normal shape of a
handler manifest. -/
def manUpdateWithInstall : HandlerManifestData :=
  { installCommand := "install.sh", uninstallCommand := "uninstall.sh",
    updateCommand := "update.sh", enableCommand := "enable.sh",
    disableCommand := "disable.sh", rebootAfterInstall := none,
    reportHeartbeat := none, updateMode := some "updateWithInstall",
    topLevelUpdateMode := false }

/-- What the launched child process would do: whether `Popen` itself raises,
and otherwise `some (t, code)` when the process exits with `code` after `t`
seconds, or `none` when it never exits. -/
structure ChildBehavior where
  launchFails : Bool
  exits : Option (Nat × Int)
deriving DecidableEq

/-- Outcome of `launchCommand`: normal return, a raised `ExtensionError`,
or no return at all (the call blocks forever in `child.wait()`). -/
inductive LaunchOutcome where
  | ok
  | fail (e : PyErr)
  | hang
deriving DecidableEq

/-- Embeds the loop condition fragment `child.poll == None` of line 433:
`child.poll` is a bound-method OBJECT (the call would be `child.poll()`),
and a method object never equals `None`, so the comparison is constantly
false. -/
def pollRefIsNone : Bool := false

/-- Embeds the polling loop of lines 433-435
(`while retry > 0 and child.poll == None: time.sleep(5); retry -= 1`),
returning the final value of `retry`. -/
def whileLoopRetry : Nat → Nat
  | 0 => 0
  | Nat.succ n => if pollRefIsNone then whileLoopRetry n else Nat.succ n

/-- Result of `launchCommand`: the outcome, whether `os.kill(pid, 9)` was
executed, and how many 5-second sleeps the poll loop performed. -/
structure LaunchRes where
  outcome : LaunchOutcome
  killed : Bool
  sleeps : Nat
deriving DecidableEq

/-- Embeds `ExtensionInstance.launchCommand` (lines 420-442) for a child
with behaviour `b`.  `timeout / 5` is Python 2 integer division. -/
def launchCommand (b : ChildBehavior) (timeout : Nat) : LaunchRes :=
  if b.launchFails then
    ⟨LaunchOutcome.fail (PyErr.extensionError "Failed to launch"), false, 0⟩
  else
    if whileLoopRetry (timeout / 5) = 0 then
      ⟨LaunchOutcome.fail (PyErr.extensionError "Timeout"), true,
        timeout / 5 - whileLoopRetry (timeout / 5)⟩
    else
      match b.exits with
      | none => ⟨LaunchOutcome.hang, false, timeout / 5 - whileLoopRetry (timeout / 5)⟩
      | some (_, code) =>
        if code ≠ 0 then
          ⟨LaunchOutcome.fail (PyErr.extensionError "Non-zero exit code"), false,
            timeout / 5 - whileLoopRetry (timeout / 5)⟩
        else ⟨LaunchOutcome.ok, false, timeout / 5 - whileLoopRetry (timeout / 5)⟩

/-- The on-disk state a lifecycle transition can touch: the
`config/HandlerState` file contents and whether `updateSetting` wrote the
`<seqNo>.settings` file. -/
structure DiskState where
  handlerState : Option String
  settingsWritten : Bool
deriving DecidableEq

/-- Embeds `ExtensionInstance.setHandlerStatus` (lines 375-380): overwrite
the `HandlerState` file. -/
def setHandlerStatus (d : DiskState) (status : String) : DiskState :=
  { d with handlerState := some status }

/-- Embeds `ExtensionInstance.updateSetting` (lines 456-459), run by
`launchCommand` before `Popen`. -/
def updateSetting (d : DiskState) : DiskState :=
  { d with settingsWritten := true }

/-- `launchCommand` together with its settings-file write. -/
def launchCommandDisk (b : ChildBehavior) (timeout : Nat) (d : DiskState) :
    LaunchRes × DiskState :=
  (launchCommand b timeout, updateSetting d)

/-- Embeds `ExtensionInstance.enable` (lines 254-261): launch the enable
command (default timeout 300), then persist `enabled` only on success. -/
def enableOp (b : ChildBehavior) (d : DiskState) : LaunchOutcome × DiskState :=
  match launchCommandDisk b 300 d with
  | (r, d2) =>
    match r.outcome with
    | LaunchOutcome.ok => (LaunchOutcome.ok, setHandlerStatus d2 "enabled")
    | o => (o, d2)

/-- Embeds `ExtensionInstance.disable` (lines 263-270): timeout 900, then
persist `disabled` only on success. -/
def disableOp (b : ChildBehavior) (d : DiskState) : LaunchOutcome × DiskState :=
  match launchCommandDisk b 900 d with
  | (r, d2) =>
    match r.outcome with
    | LaunchOutcome.ok => (LaunchOutcome.ok, setHandlerStatus d2 "disabled")
    | o => (o, d2)

/-- Embeds `ExtensionInstance.install` (lines 272-279): timeout 900, then
persist `installed` only on success. -/
def installOp (b : ChildBehavior) (d : DiskState) : LaunchOutcome × DiskState :=
  match launchCommandDisk b 900 d with
  | (r, d2) =>
    match r.outcome with
    | LaunchOutcome.ok => (LaunchOutcome.ok, setHandlerStatus d2 "installed")
    | o => (o, d2)

/-- Embeds `ExtensionInstance.uninstall` (lines 281-288): default timeout
300, then persist `uninstalled` only on success. -/
def uninstallOp (b : ChildBehavior) (d : DiskState) : LaunchOutcome × DiskState :=
  match launchCommandDisk b 300 d with
  | (r, d2) =>
    match r.outcome with
    | LaunchOutcome.ok => (LaunchOutcome.ok, setHandlerStatus d2 "uninstalled")
    | o => (o, d2)

/-- Embeds `ExtensionInstance.update` (lines 290-296): timeout 900 and no
handler-state write at all. -/
def updateOp (b : ChildBehavior) (d : DiskState) : LaunchOutcome × DiskState :=
  match launchCommandDisk b 900 d with
  | (r, d2) => (r.outcome, d2)

/-- A heartbeat record as read from element `[0].heartbeat` of the
heartbeat file; every field optional because the source validates presence
separately. -/
structure HeartbeatRec where
  status : Option String
  code : Option Int
  Message : Option String
deriving DecidableEq

/-- What the heartbeat file looks like when read: whether it exists, the
age `int(time.time() - st_mtime)` in seconds, and the parse of its
contents (`none` embeds malformed JSON). -/
structure HeartbeatFileState where
  fileIsFile : Bool
  lastUpdate : Int
  parsed : Option HeartbeatRec
deriving DecidableEq

/-- Embeds `ExtensionInstance.isResponsive` (lines 416-418) verbatim: it
returns `lastUpdate > 600`, i.e. true exactly when the file is STALE. -/
def isResponsive (f : HeartbeatFileState) : Bool :=
  f.lastUpdate > 600

/-- The synthetic record returned by `getHeartbeat` (lines 394-398). -/
def UnresponsiveHeartbeat : HeartbeatRec :=
  ⟨some "Unresponsive", some (-1), some "Extension heartbeat is not responsive"⟩

/-- Embeds `ExtensionInstance.getHeartbeat` (lines 387-406): missing file
raises; then `if not self.isResponsive(...)` returns the synthetic record;
otherwise the file is parsed. -/
def getHeartbeat (f : HeartbeatFileState) : Except PyErr HeartbeatRec :=
  if ¬ (f.fileIsFile = true) then
    Except.error (PyErr.extensionError "Failed to get heart beat file")
  else if ¬ (isResponsive f = true) then Except.ok UnresponsiveHeartbeat
  else
    match f.parsed with
    | some heartbeat => Except.ok heartbeat
    | none => Except.error (PyErr.extensionError "Malformed heartbeat file")

/-- Embeds `ExtensionInstance.validateHeartbeat` (lines 408-414). -/
def validateHeartbeat (heartbeat : HeartbeatRec) : Except PyErr Unit :=
  match heartbeat.status with
  | none => Except.error (PyErr.extensionError "Malformed heartbeat file: missing status")
  | some _ =>
    match heartbeat.code with
    | none => Except.error (PyErr.extensionError "Malformed heartbeat file: missing code")
    | some _ =>
      match heartbeat.Message with
      | none => Except.error (PyErr.extensionError "Malformed heartbeat file: missing Message")
      | some _ => Except.ok ()

/-- Embeds `ExtensionInstance.getHandlerStatus` (lines 366-373); the
source's initial `"NotInstalled"` value is dead (the `try` block either
returns the file contents or raises). -/
def getHandlerStatus (handlerStatusFile : Option String) : Except PyErr String :=
  match handlerStatusFile with
  | some contents => Except.ok contents
  | none => Except.error (PyErr.extensionError "Failed to get handler status")

/-- Embeds the URI loop of `ExtensionInstance.download` (lines 212-219):
`http u = some body` is a successful `HttpGet`, `none` an `HttpError`.
Returns the first successful body. -/
def downloadPackage (http : String → Option String) : List String → Option String
  | [] => none
  | uri :: rest =>
    match http uri with
    | some body => some body
    | none => downloadPackage http rest

/-- The URIs the loop of `download` actually attempts, in order. -/
def downloadTried (http : String → Option String) : List String → List String
  | [] => []
  | uri :: rest =>
    match http uri with
    | some _ => [uri]
    | none => uri :: downloadTried http rest

/-- Embeds `ExtensionInstance.download` (lines 208-232) up to the raise on
line 222: resolve the URI list, run the loop, and fail with
`ExtensionError` when `package` is still `None`. -/
def download (http : String → Option String) (inst : ExtensionInstance) :
    Except PyErr String :=
  match getPackageUris inst with
  | Except.error e => Except.error e
  | Except.ok uris =>
    match downloadPackage http uris with
    | some package => Except.ok package
    | none => Except.error (PyErr.extensionError "Download extension failed")

/-- Concrete HTTP environment for the download witness: only `u2`
responds. -/
def httpMirrors : String → Option String :=
  fun u => if u = "u2" then some "BODY" else none

/-- Embeds the module constant `ValidExtensionStatus` (line 33). -/
def ValidExtensionStatus : List String :=
  ["transitioning", "error", "success", "warning"]

/-- Embeds the module constant `ValidAggStatus` (line 34). -/
def ValidAggStatus : List String :=
  ["Installing", "Ready", "NotReady", "Unresponsive"]

/-- Embeds the module dict `HandlerStatusToAggStatus` (lines 37-42); `none`
embeds the `KeyError` a lookup of any other key would raise. -/
def HandlerStatusToAggStatus (handlerStatus : String) : Option String :=
  if handlerStatus = "uninstalled" then some "NotReady"
  else if handlerStatus = "installed" then some "Installing"
  else if handlerStatus = "disabled" then some "Ready"
  else if handlerStatus = "enabled" then some "Ready"
  else none

/-- The `formattedMessage` subobject of a handler status record. -/
structure FormattedMessage where
  lang : Option String
  message : Option String
deriving DecidableEq

/-- The `status` subobject of a handler status record; every field optional
because `validateExtensionStatus` checks presence. -/
structure ExtStatusInner where
  status : Option String
  operation : Option String
  code : Option Int
  name : Option String
  formattedMessage : Option FormattedMessage
deriving DecidableEq

/-- Element 0 of the parsed `<seqNo>.status` file. -/
structure ExtStatusRec where
  status : Option ExtStatusInner
deriving DecidableEq

/-- Embeds `ExtensionInstance.validateExtensionStatus` (lines 343-362):
check the required keys in source order, then that `status.status` is one
of the valid tokens. -/
def validateExtensionStatus (extStatus : ExtStatusRec) : Except PyErr Unit :=
  match extStatus.status with
  | none => Except.error (PyErr.extensionError "Malformed status file: missing top status")
  | some inner =>
    match inner.status with
    | none => Except.error (PyErr.extensionError "Malformed status file: missing status")
    | some ss =>
      match inner.operation with
      | none => Except.error (PyErr.extensionError "Malformed status file: missing operation")
      | some _ =>
        match inner.code with
        | none => Except.error (PyErr.extensionError "Malformed status file: missing code")
        | some _ =>
          match inner.name with
          | none => Except.error (PyErr.extensionError "Malformed status file: missing name")
          | some _ =>
            match inner.formattedMessage with
            | none => Except.error (PyErr.extensionError "Malformed status file: missing formattedMessage")
            | some fm =>
              match fm.lang with
              | none => Except.error (PyErr.extensionError "Malformed status file: missing lang")
              | some _ =>
                match fm.message with
                | none => Except.error (PyErr.extensionError "Malformed status file: missing message")
                | some _ =>
                  if ss ∈ ValidExtensionStatus then Except.ok ()
                  else Except.error (PyErr.extensionError "Malformed status file: invalid status")

/-- Embeds `ExtensionInstance.validateAggStatus` (lines 382-385). -/
def validateAggStatus (aggStatus : String) : Except PyErr Unit :=
  if aggStatus ∈ ValidAggStatus then Except.ok ()
  else Except.error (PyErr.extensionError "Invalid aggregated status")

/-- The aggregated status document (lines 298-311).  `code`/`Message` are
`none` when the heartbeat keys were not added. -/
structure AggStatusDoc where
  handlerVersion : String
  handlerName : String
  status : String
  settingsStatus : ExtStatusRec
  sequenceNumber : Nat
  code : Option Int
  Message : Option String
deriving DecidableEq

/-- Embeds `ExtensionInstance.createAggStatus` (lines 298-311).  On the
`getAggStatus` path `validateHeartbeat` has already ensured the heartbeat's
`code` and `Message` keys exist, so the `bind` cannot mask the `KeyError`
the source subscripts would raise. -/
def createAggStatus (setting : ExtensionSetting) (aggStatus : String)
    (extStatus : ExtStatusRec) (heartbeat : Option HeartbeatRec) : AggStatusDoc :=
  { handlerVersion := setting.version, handlerName := setting.name,
    status := aggStatus, settingsStatus := extStatus,
    sequenceNumber := setting.seqNo,
    code := heartbeat.bind (fun h => h.code),
    Message := heartbeat.bind (fun h => h.Message) }

/-- What `getAggStatus` reads from its environment: the parsed status file
(`none` embeds a missing or malformed file), the `HandlerState` file, the
manifest and the heartbeat file. -/
structure AggInput where
  setting : ExtensionSetting
  extStatusFile : Option ExtStatusRec
  handlerStateFile : Option String
  man : HandlerManifestData
  heartbeatFile : HeartbeatFileState

/-- Embeds `ExtensionInstance.getAggStatus` (lines 313-330). -/
def getAggStatus (i : AggInput) : Except PyErr AggStatusDoc :=
  match i.extStatusFile with
  | none => Except.error (PyErr.extensionError "Failed to get status file")
  | some extStatus =>
    match validateExtensionStatus extStatus with
    | Except.error e => Except.error e
    | Except.ok _ =>
      match getHandlerStatus i.handlerStateFile with
      | Except.error e => Except.error e
      | Except.ok handlerStatus =>
        match HandlerStatusToAggStatus handlerStatus with
        | none => Except.error (PyErr.keyError handlerStatus)
        | some base =>
          if isReportHeartbeat i.man = true then
            match getHeartbeat i.heartbeatFile with
            | Except.error e => Except.error e
            | Except.ok heartbeat =>
              match validateHeartbeat heartbeat with
              | Except.error e => Except.error e
              | Except.ok _ =>
                match heartbeat.status with
                | none => Except.error (PyErr.keyError "status")
                | some aggStatus =>
                  match validateAggStatus aggStatus with
                  | Except.error e => Except.error e
                  | Except.ok _ =>
                    Except.ok (createAggStatus i.setting aggStatus extStatus (some heartbeat))
          else
            match validateAggStatus base with
            | Except.error e => Except.error e
            | Except.ok _ => Except.ok (createAggStatus i.setting base extStatus none)

/-- Embeds `ExtensionInstance.handle` for goal state `disabled` (lines
135-144 and 172-175): derive the `enabled` flag from the persisted handler
state when installed, then run `handleDisable`.  Returns the flag, the
kinds of the launched commands, the launch outcome, and the final disk
state. -/
def handleGoalDisabled (installed : Bool) (child : ChildBehavior) (d : DiskState) :
    Except PyErr (Bool × List CmdKind × LaunchOutcome × DiskState) :=
  match (if installed then
      Except.map (fun s => s == "enabled") (getHandlerStatus d.handlerState)
    else Except.ok false) with
  | Except.error e => Except.error e
  | Except.ok enabled =>
    if !installed || !enabled then Except.ok (enabled, [], LaunchOutcome.ok, d)
    else
      Except.ok (enabled, [CmdKind.disable], (disableOp child d).1, (disableOp child d).2)

/-- A fully populated, valid handler status record, used as witness
input. -/
def esValid : ExtStatusRec :=
  ⟨some ⟨some "success", some "Enable", some 0, some "FooHandler",
    some ⟨some "en-US", some "ok"⟩⟩⟩

/-- A manifest that does not report heartbeat, used as witness input. -/
def manNoHeartbeat : HandlerManifestData :=
  { installCommand := "install.sh", uninstallCommand := "uninstall.sh",
    updateCommand := "update.sh", enableCommand := "enable.sh",
    disableCommand := "disable.sh", rebootAfterInstall := none,
    reportHeartbeat := none, updateMode := none, topLevelUpdateMode := false }

/-- Concrete `getAggStatus` environment: valid status file, handler state
`enabled`, no heartbeat reporting. -/
def aggInputPlain : AggInput :=
  { setting := settingAuto, extStatusFile := some esValid,
    handlerStateFile := some "enabled", man := manNoHeartbeat,
    heartbeatFile := ⟨true, 0, none⟩ }

/-- Disk state whose `HandlerState` file reads `enabled`, used as witness
input. -/
def diskEnabled : DiskState := ⟨some "enabled", false⟩

/-- A child process that exits 0 after one second, used as witness input. -/
def childQuick : ChildBehavior := ⟨false, some (1, 0)⟩

theorem sortByVersionDesc_cons (a : VersionUri) (l : List VersionUri) :
    sortByVersionDesc (a :: l) = insertDesc a (sortByVersionDesc l) := rfl

theorem strListLt_irrefl (l : List Char) : strListLt l l = false := by
  induction l with
  | nil => rfl
  | cons a as ih =>
    simp only [strListLt]
    rw [if_neg (Nat.lt_irrefl _), if_neg (Nat.lt_irrefl _)]
    exact ih

theorem strListLt_asymm (a : List Char) :
    ∀ b, strListLt a b = true → strListLt b a = false := by
  induction a with
  | nil =>
    intro b h
    cases b with
    | nil => simp [strListLt] at h
    | cons y ys => rfl
  | cons x xs ih =>
    intro b h
    cases b with
    | nil => simp [strListLt] at h
    | cons y ys =>
      simp only [strListLt] at h ⊢
      by_cases h1 : x.toNat < y.toNat
      · rw [if_neg (Nat.lt_asymm h1), if_pos h1]
      · by_cases h2 : y.toNat < x.toNat
        · rw [if_neg h1, if_pos h2] at h
          exact absurd h (by decide)
        · rw [if_neg h1, if_neg h2] at h
          rw [if_neg h2, if_neg h1]
          exact ih ys h

theorem strListLt_trans (a : List Char) :
    ∀ b c, strListLt a b = true → strListLt b c = true → strListLt a c = true := by
  induction a with
  | nil =>
    intro b c h1 h2
    cases b with
    | nil => exact h2
    | cons y ys =>
      cases c with
      | nil => simp [strListLt] at h2
      | cons z zs => rfl
  | cons x xs ih =>
    intro b c h1 h2
    cases b with
    | nil => simp [strListLt] at h1
    | cons y ys =>
      cases c with
      | nil => simp [strListLt] at h2
      | cons z zs =>
        simp only [strListLt] at h1 h2 ⊢
        by_cases hxy : x.toNat < y.toNat
        · by_cases hyz : y.toNat < z.toNat
          · rw [if_pos (Nat.lt_trans hxy hyz)]
          · by_cases hzy : z.toNat < y.toNat
            · rw [if_neg hyz, if_pos hzy] at h2
              exact absurd h2 (by decide)
            · have hyz2 : y.toNat = z.toNat :=
                Nat.le_antisymm (Nat.not_lt.mp hzy) (Nat.not_lt.mp hyz)
              rw [if_pos (hyz2 ▸ hxy)]
        · by_cases hyx : y.toNat < x.toNat
          · rw [if_neg hxy, if_pos hyx] at h1
            exact absurd h1 (by decide)
          · have hxy2 : x.toNat = y.toNat :=
              Nat.le_antisymm (Nat.not_lt.mp hyx) (Nat.not_lt.mp hxy)
            rw [if_neg hxy, if_neg hyx] at h1
            by_cases hyz : y.toNat < z.toNat
            · rw [if_pos (hxy2 ▸ hyz)]
            · by_cases hzy : z.toNat < y.toNat
              · rw [if_neg hyz, if_pos hzy] at h2
                exact absurd h2 (by decide)
              · have hyz2 : y.toNat = z.toNat :=
                  Nat.le_antisymm (Nat.not_lt.mp hzy) (Nat.not_lt.mp hyz)
                rw [if_neg hyz, if_neg hzy] at h2
                rw [if_neg (by omega), if_neg (by omega)]
                exact ih ys zs h1 h2

theorem mem_insertDesc (x : VersionUri) (l : List VersionUri) (z : VersionUri) :
    z ∈ insertDesc x l ↔ z = x ∨ z ∈ l := by
  induction l with
  | nil => simp [insertDesc]
  | cons y ys ih =>
    simp only [insertDesc]
    by_cases hb : strListLt y.version.data x.version.data = true
    · rw [if_pos hb]
      simp only [List.mem_cons]
    · rw [if_neg hb]
      simp only [List.mem_cons, ih]
      tauto

theorem mem_sortByVersionDesc (l : List VersionUri) (z : VersionUri) :
    z ∈ sortByVersionDesc l ↔ z ∈ l := by
  induction l with
  | nil => exact Iff.rfl
  | cons a as ih =>
    rw [sortByVersionDesc_cons, mem_insertDesc, ih, List.mem_cons]

theorem sortByVersionDesc_spec (l : List VersionUri) :
    l = [] ∨
    ∃ h t, sortByVersionDesc l = h :: t ∧ h ∈ l ∧
      ∀ z ∈ l, strListLt h.version.data z.version.data = false := by
  induction l with
  | nil => exact Or.inl rfl
  | cons a as ih =>
    right
    rcases ih with hnil | ⟨h, t, hsort, hmem, hmax⟩
    · subst hnil
      refine ⟨a, [], rfl, List.mem_cons_self a [], ?_⟩
      intro z hz
      rcases List.mem_cons.mp hz with h1 | h2
      · subst h1
        exact strListLt_irrefl _
      · exact absurd h2 (List.not_mem_nil z)
    · rw [sortByVersionDesc_cons, hsort]
      simp only [insertDesc]
      by_cases hlt : strListLt h.version.data a.version.data = true
      · rw [if_pos hlt]
        refine ⟨a, h :: t, rfl, List.mem_cons_self a as, ?_⟩
        intro z hz
        rcases List.mem_cons.mp hz with h1 | h2
        · subst h1
          exact strListLt_irrefl _
        · cases haz : strListLt a.version.data z.version.data with
          | false => rfl
          | true =>
            have hcontra : strListLt h.version.data z.version.data = true :=
              strListLt_trans _ _ _ hlt haz
            rw [hmax z h2] at hcontra
            exact absurd hcontra (by decide)
      · rw [if_neg hlt]
        refine ⟨h, insertDesc a t, rfl, List.mem_cons_of_mem a hmem, ?_⟩
        intro z hz
        rcases List.mem_cons.mp hz with h1 | h2
        · subst h1
          exact Bool.eq_false_iff.mpr hlt
        · exact hmax z h2

theorem splitDot_ne_nil (l : List Char) : splitDot l ≠ [] := by
  cases l with
  | nil => simp [splitDot]
  | cons c cs =>
    simp only [splitDot]
    by_cases hc : c = '.'
    · rw [if_pos hc]
      simp
    · rw [if_neg hc]
      cases splitDot cs <;> simp

theorem splitDot_headD (l : List Char) :
    (splitDot l).headD [] = l.takeWhile (fun c => c != '.') := by
  induction l with
  | nil => rfl
  | cons c cs ih =>
    simp only [splitDot]
    by_cases hc : c = '.'
    · subst hc
      rw [if_pos rfl]
      simp [List.takeWhile_cons]
    · rw [if_neg hc]
      cases hsd : splitDot cs with
      | nil => exact absurd hsd (splitDot_ne_nil cs)
      | cons p ps =>
        have hih : p = cs.takeWhile (fun c => c != '.') := by
          rw [← ih, hsd]
          rfl
        simp [List.takeWhile_cons, bne_iff_ne, hc, hih]

/-- Claim C6: target-version resolution returns exactly `setting.version`
unless `upgradePolicy` is (case-insensitively) `auto`; under `auto` it keeps
exactly the `versionUris` entries whose version starts with the goal
version's major number followed by a dot, and returns the lexically
greatest such version string, raising `ExtensionError` when none match. -/
theorem getTargetVersion_resolution (setting : ExtensionSetting)
    (vus F : List VersionUri)
    (hv : setting.versionUris = some vus)
    (hF : vus.filter (fun x => List.isPrefixOf
        (setting.version.data.takeWhile (fun c => c != '.') ++ ['.']) x.version.data) = F) :
    (setting.upgradePolicy = none → getTargetVersion setting = Except.ok setting.version) ∧
    (∀ p, setting.upgradePolicy = some p → asciiLower p ≠ "auto" →
      getTargetVersion setting = Except.ok setting.version) ∧
    (∀ p, setting.upgradePolicy = some p → asciiLower p = "auto" →
      ((F = [] → ∃ e, getTargetVersion setting = Except.error e) ∧
       (F ≠ [] → ∃ v, getTargetVersion setting = Except.ok v ∧
          v ∈ F.map VersionUri.version ∧
          ∀ x ∈ F, strListLt v.data x.version.data = false))) := by
  refine ⟨?_, ?_, ?_⟩
  · intro hp
    simp [getTargetVersion, hp]
  · intro p hp hne
    simp only [getTargetVersion, hp]
    rw [if_pos hne]
  · intro p hp hauto
    have hred : getTargetVersion setting =
        match sortByVersionDesc F with
        | [] => Except.error (PyErr.extensionError "Cannot find version")
        | x :: _ => Except.ok x.version := by
      simp only [getTargetVersion, hp, hv]
      rw [if_neg (fun hcon => hcon hauto)]
      simp only [splitDot_headD, hF]
    constructor
    · intro hFe
      subst hFe
      exact ⟨_, hred⟩
    · intro hFne
      rcases sortByVersionDesc_spec F with h1 | ⟨h, t, hsort, hmem, hmax⟩
      · exact absurd h1 hFne
      · refine ⟨h.version, ?_, List.mem_map.mpr ⟨h, hmem, rfl⟩, hmax⟩
        rw [hred, hsort]

/-- Witness for C6 at a concrete auto-upgrade setting with goal version
`2.0.0` and candidate versions `2.0.0` and `2.3.1`: the resolved target is
a member of the filtered list and lexically maximal in it. -/
theorem getTargetVersion_resolution_witness :
    ∃ v, getTargetVersion settingAuto = Except.ok v ∧
      v ∈ ([⟨"2.0.0", ["uriA"]⟩, ⟨"2.3.1", ["uriB"]⟩] : List VersionUri).map VersionUri.version ∧
      ∀ x ∈ ([⟨"2.0.0", ["uriA"]⟩, ⟨"2.3.1", ["uriB"]⟩] : List VersionUri),
        strListLt v.data x.version.data = false :=
  ((getTargetVersion_resolution settingAuto
      [⟨"2.0.0", ["uriA"]⟩, ⟨"2.3.1", ["uriB"]⟩]
      [⟨"2.0.0", ["uriA"]⟩, ⟨"2.3.1", ["uriB"]⟩]
      rfl (by decide)).2.2 "auto" rfl rfl).2 (by decide)

/-- Claim C5 (refuted, code bug): after the auto-upgrade bump the instance
operates on `currVersion = "2.3.1"`, yet `getPackageUris` looks the URI
list up under `setting.version = "2.0.0"` and returns `["uriA"]`, while the
`versionUris` entry for the instance's `currVersion` holds `["uriB"]`. -/
theorem getPackageUris_ignores_currVersion :
    handleEnableFreshCurrVersion settingAuto "2.0.0" = Except.ok "2.3.1" ∧
    getPackageUris { setting := settingAuto, currVersion := "2.3.1", installed := false } =
      Except.ok ["uriA"] ∧
    List.find? (fun vu => vu.version == "2.3.1")
      [(⟨"2.0.0", ["uriA"]⟩ : VersionUri), ⟨"2.3.1", ["uriB"]⟩] = some ⟨"2.3.1", ["uriB"]⟩ ∧
    (["uriA"] : List String) ≠ ["uriB"] :=
  ⟨rfl, rfl, rfl, by decide⟩

theorem rfindChar_of_not_mem (l : List Char) (c : Char) (h : c ∉ l) :
    rfindChar l c = -1 := by
  induction l with
  | nil => rfl
  | cons a as ih =>
    simp only [List.mem_cons, not_or] at h
    simp only [rfindChar, ih h.2]
    rw [if_neg (by decide), if_neg (fun he => h.1 he.symm)]

theorem rfindChar_mem_spec (l : List Char) (c : Char) (hm : c ∈ l) :
    ∃ k : Nat, rfindChar l c = (k : Int) ∧
      l.take k ++ c :: l.drop (k + 1) = l ∧ c ∉ l.drop (k + 1) := by
  induction l with
  | nil => exact absurd hm (List.not_mem_nil c)
  | cons a as ih =>
    by_cases hmem : c ∈ as
    · obtain ⟨k, hk, hsplit, hnot⟩ := ih hmem
      refine ⟨k + 1, ?_, ?_, ?_⟩
      · simp only [rfindChar, hk]
        rw [if_pos (Int.natCast_nonneg k)]
        push_cast
        ring
      · simp only [List.take_succ_cons, List.drop_succ_cons, List.cons_append]
        rw [hsplit]
      · simpa [List.drop_succ_cons] using hnot
    · have hc : c = a := by
        rcases List.mem_cons.mp hm with h1 | h2
        · exact h1
        · exact absurd h2 hmem
      refine ⟨0, ?_, ?_, ?_⟩
      · simp only [rfindChar, rfindChar_of_not_mem as c hmem]
        rw [if_neg (by decide), if_pos hc.symm]
        rfl
      · simp [hc]
      · simpa using hmem

/-- Claim C9: for every directory name containing at least one dash,
`ParseExtensionDirName` returns the pair split at the last dash, so that
`name ++ "-" ++ version` recomposes the input (and the version part holds
no further dash); for a name without a dash it raises `ExtensionError`. -/
theorem parseExtensionDirName_last_dash (D : List Char) :
    (('-' ∈ D) → ∃ n v, ParseExtensionDirName D = Except.ok (n, v) ∧
      n ++ '-' :: v = D ∧ '-' ∉ v) ∧
    (('-' ∉ D) → ParseExtensionDirName D =
      Except.error (PyErr.extensionError "Invalid extenation dir name")) := by
  constructor
  · intro hm
    obtain ⟨k, hk, hsplit, hnot⟩ := rfindChar_mem_spec D '-' hm
    refine ⟨D.take k, D.drop (k + 1), ?_, hsplit, hnot⟩
    unfold ParseExtensionDirName
    rw [hk, if_neg (Int.not_lt.mpr (Int.natCast_nonneg k))]
    simp
  · intro hnm
    unfold ParseExtensionDirName
    rw [rfindChar_of_not_mem D '-' hnm, if_pos (by decide)]

/-- Witness for C9 at the concrete directory name `Foo-1.0` (parsed as
name `Foo`, version `1.0`). -/
theorem parseExtensionDirName_last_dash_witness :
    ∃ n v, ParseExtensionDirName ['F', 'o', 'o', '-', '1', '.', '0'] = Except.ok (n, v) ∧
      n ++ '-' :: v = ['F', 'o', 'o', '-', '1', '.', '0'] ∧ '-' ∉ v :=
  (parseExtensionDirName_last_dash ['F', 'o', 'o', '-', '1', '.', '0']).1 (by decide)

theorem downloadPackage_eq_none_iff (http : String → Option String) (uris : List String) :
    downloadPackage http uris = none ↔ ∀ u ∈ uris, http u = none := by
  induction uris with
  | nil => simp [downloadPackage]
  | cons u rest ih =>
    cases hu : http u with
    | some b => simp [downloadPackage, hu]
    | none => simp [downloadPackage, hu, ih]

theorem downloadPackage_prepend_fail (http : String → Option String) :
    ∀ pre : List String, (∀ p2 ∈ pre, http p2 = none) → ∀ rest,
      downloadPackage http (pre ++ rest) = downloadPackage http rest ∧
      downloadTried http (pre ++ rest) = pre ++ downloadTried http rest := by
  intro pre
  induction pre with
  | nil =>
    intro _ rest
    exact ⟨rfl, rfl⟩
  | cons p ps ih =>
    intro hpre rest
    have hp : http p = none := hpre p (List.mem_cons_self p ps)
    have hrec := ih (fun q hq => hpre q (List.mem_cons_of_mem p hq)) rest
    constructor
    · show downloadPackage http (p :: (ps ++ rest)) = _
      simp [downloadPackage, hp, hrec.1]
    · show downloadTried http (p :: (ps ++ rest)) = _
      simp [downloadTried, hp, hrec.2]

/-- Claim C8: for every non-empty URI list, `download` attempts an HTTP GET
on each URI in order, accepts the body of the first successful response and
attempts no further URI after it, and fails with the `DownloadFailed`
`ExtensionError` exactly when every URI in the list has failed. -/
theorem download_first_success (http : String → Option String) (uris : List String)
    (hne : uris ≠ []) :
    (downloadPackage http uris = none ↔ ∀ u ∈ uris, http u = none) ∧
    (∀ pre u post b, uris = pre ++ u :: post → (∀ p2 ∈ pre, http p2 = none) →
      http u = some b →
      downloadPackage http uris = some b ∧ downloadTried http uris = pre ++ [u]) ∧
    (∀ inst, getPackageUris inst = Except.ok uris → downloadPackage http uris = none →
      download http inst = Except.error (PyErr.extensionError "Download extension failed")) := by
  refine ⟨downloadPackage_eq_none_iff http uris, ?_, ?_⟩
  · intro pre u post b hsplit hpre hu
    subst hsplit
    obtain ⟨h1, h2⟩ := downloadPackage_prepend_fail http pre hpre (u :: post)
    constructor
    · rw [h1]
      simp [downloadPackage, hu]
    · rw [h2]
      simp [downloadTried, hu]
  · intro inst hg hdp
    simp [download, hg, hdp]

/-- Witness for C8: with mirrors `u1` (failing), `u2` (succeeding), `u3`,
the loop returns `u2`'s body and attempts exactly `u1` then `u2`. -/
theorem download_first_success_witness :
    downloadPackage httpMirrors ["u1", "u2", "u3"] = some "BODY" ∧
    downloadTried httpMirrors ["u1", "u2", "u3"] = ["u1", "u2"] :=
  (download_first_success httpMirrors ["u1", "u2", "u3"] (by decide)).2.1
    ["u1"] "u2" ["u3"] "BODY" rfl (by decide) (by decide)

/-- Claim C1 (refuted, code bug in `isUpdateWithInstall`): with a manifest
whose `handlerManifest.updateMode` is `updateWithInstall` (and, as usual,
no top-level `updateMode` key), the upgrade sequence launches only
disable(old), update(new), uninstall(old), enable(new) — `install(new)` is
skipped because line 608 of the source tests `"updateMode" in self.data`
against the top-level dict instead of `self.data['handlerManifest']`. -/
theorem upgrade_skips_install_cmd :
    asciiLower "updateWithInstall" = "updatewithinstall" ∧
    isUpdateWithInstall manUpdateWithInstall = false ∧
    upgrade (fun _ => true)
      { setting := settingAuto, currVersion := "1.0.0", installed := true }
      { setting := settingAuto, currVersion := "1.1.0", installed := false }
      manUpdateWithInstall =
      Except.ok [⟨CmdKind.disable, "1.0.0"⟩, ⟨CmdKind.update, "1.1.0"⟩,
        ⟨CmdKind.uninstall, "1.0.0"⟩, ⟨CmdKind.enable, "1.1.0"⟩] :=
  ⟨rfl, rfl, rfl⟩

/-- Claim C2 (refuted in its timeout clause, code bug shared with C4): an
enable command whose process exits 0 only after 400 s — beyond the 300 s
timeout — is not failed: the handler state is still advanced to `enabled`;
and a process that never exits raises no `ExtensionError` at all (the call
blocks), though the state is indeed left unchanged. -/
theorem enableOp_state_after_exceeded_timeout :
    ((400 : Nat) > 300) ∧
    enableOp ⟨false, some (400, 0)⟩ ⟨some "installed", false⟩ =
      (LaunchOutcome.ok, ⟨some "enabled", true⟩) ∧
    enableOp ⟨false, none⟩ ⟨some "installed", false⟩ =
      (LaunchOutcome.hang, ⟨some "installed", true⟩) :=
  ⟨by decide, rfl, rfl⟩

/-- Claim C3 (refuted, code bug): `isResponsive` returns `lastUpdate > 600`
— the inverse of its name — so `getHeartbeat` PARSES a 700-second-old
heartbeat file and returns the synthetic Unresponsive record exactly for a
fresh (100-second-old) file. -/
theorem getHeartbeat_liveness_inverted :
    ((700 : Int) > 600) ∧
    getHeartbeat ⟨true, 700, some ⟨some "Ready", some 0, some "All good"⟩⟩ =
      Except.ok ⟨some "Ready", some 0, some "All good"⟩ ∧
    ((100 : Int) ≤ 600) ∧
    getHeartbeat ⟨true, 100, some ⟨some "Ready", some 0, some "All good"⟩⟩ =
      Except.ok UnresponsiveHeartbeat :=
  ⟨by decide, rfl, by decide, rfl⟩

/-- Claim C4 (refuted, code bug): because the loop condition compares the
method object `child.poll` with `None` (constantly false), `launchCommand`
performs zero 5-second polls: a process that never exits is never sent
SIGKILL and no timeout `ExtensionError` is raised (the call hangs), and a
process exiting 0 after 3000 s under a 300 s timeout is likewise never
killed. -/
theorem launchCommand_never_kills :
    launchCommand ⟨false, none⟩ 300 = ⟨LaunchOutcome.hang, false, 0⟩ ∧
    launchCommand ⟨false, some (3000, 0)⟩ 300 = ⟨LaunchOutcome.ok, false, 0⟩ ∧
    (300 / 5 : Nat) = 60 ∧
    whileLoopRetry 60 = 60 :=
  ⟨rfl, rfl, rfl, rfl⟩

/-- Claim C7: after a successful handle, the base aggregate comes from the
persisted handler state through the fixed mapping (uninstalled↦NotReady,
installed↦Installing, disabled↦Ready, enabled↦Ready), total on the four
handler-state tokens; when the manifest reports heartbeat, the validated
heartbeat's `status` replaces the base aggregate and its `code` and
`Message` are copied verbatim to the top level; a final aggregate outside
the valid set raises `ExtensionError`. -/
theorem getAggStatus_mapping (i : AggInput) (es : ExtStatusRec) (hs : String)
    (h1 : i.extStatusFile = some es)
    (h2 : validateExtensionStatus es = Except.ok ())
    (h3 : i.handlerStateFile = some hs)
    (h4 : hs = "uninstalled" ∨ hs = "installed" ∨ hs = "disabled" ∨ hs = "enabled") :
    (HandlerStatusToAggStatus "uninstalled" = some "NotReady" ∧
     HandlerStatusToAggStatus "installed" = some "Installing" ∧
     HandlerStatusToAggStatus "disabled" = some "Ready" ∧
     HandlerStatusToAggStatus "enabled" = some "Ready") ∧
    (isReportHeartbeat i.man = false →
      ∃ base d, HandlerStatusToAggStatus hs = some base ∧
        getAggStatus i = Except.ok d ∧ d.status = base ∧
        d.code = none ∧ d.Message = none ∧ d.settingsStatus = es) ∧
    (∀ hb s cd m, isReportHeartbeat i.man = true →
      getHeartbeat i.heartbeatFile = Except.ok hb →
      hb.status = some s → hb.code = some cd → hb.Message = some m →
      ((s ∈ ValidAggStatus → ∃ d, getAggStatus i = Except.ok d ∧ d.status = s ∧
          d.code = some cd ∧ d.Message = some m ∧ d.settingsStatus = es) ∧
       (s ∉ ValidAggStatus → ∃ e, getAggStatus i = Except.error e))) := by
  obtain ⟨base, hbase, hbasemem⟩ :
      ∃ base, HandlerStatusToAggStatus hs = some base ∧ base ∈ ValidAggStatus := by
    rcases h4 with h | h | h | h <;> subst h
    · exact ⟨"NotReady", rfl, by decide⟩
    · exact ⟨"Installing", rfl, by decide⟩
    · exact ⟨"Ready", rfl, by decide⟩
    · exact ⟨"Ready", rfl, by decide⟩
  refine ⟨⟨rfl, rfl, rfl, rfl⟩, ?_, ?_⟩
  · intro hnb
    have hva : validateAggStatus base = Except.ok () := by
      unfold validateAggStatus
      rw [if_pos hbasemem]
    refine ⟨base, createAggStatus i.setting base es none, hbase, ?_, rfl, rfl, rfl, rfl⟩
    simp [getAggStatus, h1, h2, h3, getHandlerStatus, hbase, hnb, hva]
  · intro hb s cd m hrb hgh hst hcd hm
    have hvh : validateHeartbeat hb = Except.ok () := by
      unfold validateHeartbeat
      rw [hst, hcd, hm]
    constructor
    · intro hmem
      have hva : validateAggStatus s = Except.ok () := by
        unfold validateAggStatus
        rw [if_pos hmem]
      refine ⟨createAggStatus i.setting s es (some hb), ?_, rfl, hcd, hm, rfl⟩
      simp [getAggStatus, h1, h2, h3, getHandlerStatus, hbase, hrb, hgh, hvh, hst, hva]
    · intro hnmem
      have hva : validateAggStatus s =
          Except.error (PyErr.extensionError "Invalid aggregated status") := by
        unfold validateAggStatus
        rw [if_neg hnmem]
      refine ⟨PyErr.extensionError "Invalid aggregated status", ?_⟩
      simp [getAggStatus, h1, h2, h3, getHandlerStatus, hbase, hrb, hgh, hvh, hst, hva]

/-- Witness for C7: with handler state `enabled`, a valid status file and no
heartbeat reporting, the aggregate document carries status `Ready` and no
top-level `code`/`Message`. -/
theorem getAggStatus_mapping_witness :
    ∃ base d, HandlerStatusToAggStatus "enabled" = some base ∧
      getAggStatus aggInputPlain = Except.ok d ∧ d.status = base ∧
      d.code = none ∧ d.Message = none ∧ d.settingsStatus = esValid :=
  (getAggStatus_mapping aggInputPlain esValid "enabled" rfl rfl rfl
    (Or.inr (Or.inr (Or.inr rfl)))).2.1 rfl

/-- Claim C10: for an installed instance whose `HandlerState` file reads
`c`, the `enabled` flag is true iff `c` is exactly the string `enabled`;
under goal state `disabled` a disable command is launched iff that flag is
true, and for any other file content nothing is launched and the disk is
untouched. -/
theorem handleGoalDisabled_enabled_flag (c : String) (child : ChildBehavior) (d : DiskState)
    (hd : d.handlerState = some c) :
    ∃ enabled launched outcome d2,
      handleGoalDisabled true child d = Except.ok (enabled, launched, outcome, d2) ∧
      (enabled = true ↔ c = "enabled") ∧
      (c = "enabled" → launched = [CmdKind.disable]) ∧
      (c ≠ "enabled" → launched = [] ∧ d2 = d) := by
  by_cases hc : c = "enabled"
  · subst hc
    refine ⟨true, [CmdKind.disable], (disableOp child d).1, (disableOp child d).2, ?_,
      by simp, fun _ => rfl, fun hcon => absurd rfl hcon⟩
    simp [handleGoalDisabled, hd, getHandlerStatus, Except.map]
  · have hbeq : (c == "enabled") = false := beq_eq_false_iff_ne.mpr hc
    refine ⟨false, [], LaunchOutcome.ok, d, ?_, by simp [hc], fun h => absurd h hc,
      fun _ => ⟨rfl, rfl⟩⟩
    simp [handleGoalDisabled, hd, getHandlerStatus, hbeq, Except.map]

/-- Witness for C10: handler state file reading `enabled` with a quickly
succeeding disable command. -/
theorem handleGoalDisabled_enabled_flag_witness :
    ∃ enabled launched outcome d2,
      handleGoalDisabled true childQuick diskEnabled = Except.ok (enabled, launched, outcome, d2) ∧
      (enabled = true ↔ "enabled" = "enabled") ∧
      ("enabled" = "enabled" → launched = [CmdKind.disable]) ∧
      ("enabled" ≠ "enabled" → launched = [] ∧ d2 = diskEnabled) :=
  handleGoalDisabled_enabled_flag "enabled" childQuick diskEnabled rfl
